import Mathlib

/-!
Shallow embedding of the `postgres-backup` CLI core
(`src/utils/backup.ts` and `src/index.ts`).

External effects (the filesystem, `child_process.exec`, `readline`) are made
explicit: the filesystem is a list of existing directory paths, each external
process invocation is an `ExecOutcome` (a completion time plus an
`Except`-style result) supplied by the environment, and the interactive
session takes the operator's two line inputs as arguments and returns the
trace of observable events it performs.
-/

deriving instance DecidableEq for Except

namespace PostgresBackup

/-! ## JavaScript / Node primitives used by the source -/

/-- Whitespace skipped by `Number.parseInt` before reading digits. -/
def jsWhitespace (c : Char) : Bool :=
  c = ' ' || c = '\t' || c = '\n' || c = '\r'

/-- Value of a decimal digit character, `none` for any other character. -/
def digitVal (c : Char) : Option Nat :=
  if c.isDigit then some (c.toNat - 48) else none

/-- Value of a hexadecimal digit character, `none` for any other character. -/
def hexDigitVal (c : Char) : Option Nat :=
  if c.isDigit then some (c.toNat - 48)
  else if 'a' ≤ c ∧ c ≤ 'f' then some (c.toNat - 87)
  else if 'A' ≤ c ∧ c ≤ 'F' then some (c.toNat - 55)
  else none

/-- Reads the longest digit prefix (in the given base); accumulator `none`
means no digit has been read yet, so an input with no leading digit yields
`none` (JavaScript `NaN`). -/
def parseDigitsAux (base : Nat) (val : Char → Option Nat) :
    List Char → Option Nat → Option Nat
  | [], acc => acc
  | c :: cs, acc =>
    match val c with
    | some d => parseDigitsAux base val cs (some (acc.getD 0 * base + d))
    | none => acc

/-- Digit-prefix parse of a character list, starting with no digits read. -/
def parseDigits (base : Nat) (val : Char → Option Nat) (cs : List Char) :
    Option Nat :=
  parseDigitsAux base val cs none

/-- Unsigned part of `Number.parseInt` with no radix argument: a `0x`/`0X`
prefix switches to hexadecimal, otherwise the leading decimal digits are
read; trailing non-digit characters are ignored. -/
def jsParseIntUnsigned (cs : List Char) : Option Nat :=
  match cs with
  | '0' :: 'x' :: rest => parseDigits 16 hexDigitVal rest
  | '0' :: 'X' :: rest => parseDigits 16 hexDigitVal rest
  | _ => parseDigits 10 digitVal cs

/-- JavaScript `Number.parseInt(s)` (radix auto-detected): skip leading whitespace, read
an optional sign, then the longest digit prefix; `none` models `NaN`. -/
def jsParseInt (s : String) : Option Int :=
  match s.data.dropWhile jsWhitespace with
  | '-' :: rest => (jsParseIntUnsigned rest).map (fun n => -(n : Int))
  | '+' :: rest => (jsParseIntUnsigned rest).map (fun n => (n : Int))
  | cs => (jsParseIntUnsigned cs).map (fun n => (n : Int))

/-- JavaScript `s.endsWith(post)`. -/
def jsEndsWith (s post : String) : Bool :=
  post.data.isSuffixOf s.data

/-- JavaScript `s.toLowerCase()` (ASCII range, which is all the source
compares). -/
def jsToLower (s : String) : String :=
  ⟨s.data.map Char.toLower⟩

/-- Model of `path.join(a, b)` for the simple relative segments the source joins. -/
def pathJoin (a b : String) : String := a ++ "/" ++ b

/-- Model of `path.basename(p)`: the component after the last separator. -/
def basename (p : String) : String := (p.splitOn "/").getLastD p

/-! ## `src/utils/backup.ts` — `PostgresBackup` -/

/-- Method `extractDbName` (private): the input is the result of
`new URL(dbUrl)` — `some pathname` when the URL constructor succeeds with
that pathname, `none` when it throws.  The source returns
`url.pathname.slice(1) || "unknown-db"`: the pathname minus its first
character when that is nonempty (the empty string is falsy), and the
sentinel `"unknown-db"` on an empty remainder or a parse failure. -/
def extractDbName (parsed : Option String) : String :=
  match parsed with
  | some pathname =>
    let name := pathname.drop 1
    if name = "" then "unknown-db" else name
  | none => "unknown-db"

/-- Model of `fs.mkdirSync(dir, { recursive: true })` on a filesystem modelled as the
list of existing directory paths. -/
def mkdirSync (fs : List String) (dir : String) : List String :=
  dir :: fs

/-- Model of `fs.existsSync(dir)`. -/
def existsSync (fs : List String) (dir : String) : Bool :=
  fs.contains dir

/-- Method `createDirectories` (private): for each of
`[this.backupDir, this.sqlDir]` (where `this.sqlDir = path.join(backupDir,
"sql")`), create the directory if it does not already exist.  Returns the
filesystem after both steps. -/
def createDirectories (backupDir : String) (fs : List String) : List String :=
  let sqlDir := pathJoin backupDir "sql"
  let fs1 := if existsSync fs backupDir then fs else mkdirSync fs backupDir
  if existsSync fs1 sqlDir then fs1 else mkdirSync fs1 sqlDir

/-- Outcome of one `execAsync(...)` invocation: the (abstract) instant at
which the promise settles, and whether it fulfilled (`.ok`) or rejected
(`.error` with the error value). -/
structure ExecOutcome where
  time : Nat
  result : Except String Unit
  deriving DecidableEq, Repr

/-- Whether an invocation fulfilled. -/
def ExecOutcome.isOk (r : ExecOutcome) : Bool :=
  match r.result with
  | .ok _ => true
  | .error _ => false

/-- Settling of `Promise.all([a, b])`: fulfils at the later completion when
both fulfil; rejects at the first rejection (the other invocation keeps
running but is no longer awaited), carrying that rejection's error. -/
def promiseAll2 (a b : ExecOutcome) : ExecOutcome :=
  match a.result, b.result with
  | .ok _, .ok _ => ⟨max a.time b.time, .ok ()⟩
  | .error e, .ok _ => ⟨a.time, .error e⟩
  | .ok _, .error e => ⟨b.time, .error e⟩
  | .error e1, .error e2 =>
    if a.time ≤ b.time then ⟨a.time, .error e1⟩ else ⟨b.time, .error e2⟩

/-- The two dump command lines `createBackup` passes to `execAsync`. -/
inductive DumpCmd where
  /-- Plain-text dump: `pg_dump "<url>" -f <target>`. -/
  | pgDumpPlain (url target : String)
  /-- Custom-format dump: `pg_dump -Fc "<url>" -f <target>`. -/
  | pgDumpCustom (url target : String)
  deriving DecidableEq, Repr

/-- The structured success log of `createBackup` (`logger.info` fields). -/
structure BackupInfoLog where
  database : String
  sqlBackup : String
  customBackup : String
  timestamp : String
  deriving DecidableEq, Repr

/-- Everything observable about one `createBackup()` call: the dump commands
launched, the settled result (`.ok` with the `{ sql, backup }` paths or the
propagated rejection), the instant the `await` resumes, and the logs. -/
structure CreateBackupRun where
  cmds : List DumpCmd
  result : Except String (String × String)
  settleTime : Nat
  infoLog : Option BackupInfoLog
  errorLog : Option String
  deriving DecidableEq, Repr

/-- Method `createBackup()`: stamps `new Date().toISOString()` (passed in as
`isoNow`) with `:` and `.` replaced by `-`, builds the two target filenames
and paths, launches both dumps via `Promise.all`, and on success logs and
returns both paths; on failure logs the error with the database name and
rethrows.  `r1`/`r2` are the environment-chosen outcomes of the plain and
custom dump invocations. -/
def createBackup (dbName backupDir sqlDir dbUrl isoNow : String)
    (r1 r2 : ExecOutcome) : CreateBackupRun :=
  let timestamp := isoNow.map (fun c => if c = ':' ∨ c = '.' then '-' else c)
  let sqlFilename := dbName ++ "-backup-" ++ timestamp ++ ".sql"
  let backupFilename := dbName ++ "-backup-" ++ timestamp ++ ".backup"
  let sqlPath := pathJoin sqlDir sqlFilename
  let backupPath := pathJoin backupDir backupFilename
  let cmds := [DumpCmd.pgDumpPlain dbUrl sqlPath, DumpCmd.pgDumpCustom dbUrl backupPath]
  let joined := promiseAll2 r1 r2
  match joined.result with
  | .ok _ =>
    { cmds := cmds
      result := .ok (sqlPath, backupPath)
      settleTime := joined.time
      infoLog := some ⟨dbName, sqlFilename, backupFilename, timestamp⟩
      errorLog := none }
  | .error e =>
    { cmds := cmds
      result := .error e
      settleTime := joined.time
      infoLog := none
      errorLog := some ("Backup failed for database '" ++ dbName ++ "':") }

/-- The command line `restoreBackup` passes to `execAsync`. -/
inductive RestoreCmd where
  /-- Clean restore: `pg_restore -d "<url>" --clean --if-exists <path>`. -/
  | pgRestoreClean (url p : String)
  /-- Plain-SQL execution: `psql "<url>" -f <path>`. -/
  | psqlFile (url p : String)
  deriving DecidableEq, Repr

/-- Everything observable about one `restoreBackup(path)` call. -/
structure RestoreRun where
  command : RestoreCmd
  result : Except String Unit
  infoLog : Option String
  errorLog : Option String
  deriving DecidableEq, Repr

/-- Method `restoreBackup(backupPath)`: picks the restore command by suffix
(`.backup` → clean `pg_restore`, anything else → `psql -f`), runs it, and
logs success or logs-and-rethrows the failure.  `r` is the
environment-chosen outcome of the invocation. -/
def restoreBackup (dbUrl backupPath : String) (r : Except String Unit) :
    RestoreRun :=
  let command :=
    if jsEndsWith backupPath ".backup" then
      RestoreCmd.pgRestoreClean dbUrl backupPath
    else
      RestoreCmd.psqlFile dbUrl backupPath
  match r with
  | .ok _ =>
    { command := command
      result := .ok ()
      infoLog := some ("Restore completed successfully from: " ++ backupPath)
      errorLog := none }
  | .error e =>
    { command := command
      result := .error e
      infoLog := none
      errorLog := some "Restore failed:" }

/-! ## `src/index.ts` — the interactive `restore` command -/

/-- Observable events of the `restore` command action, in order: console
messages, the per-backup display, `rl.question` prompts, the call into
`backup.restoreBackup`, `logger.error` lines, and the `rl.close()` performed
by the `finally` block. -/
inductive REvent where
  | msg (s : String)
  | display (files : List String)
  | prompt (q : String)
  | restoreCall (p : String)
  | errorLog (s : String)
  | closed
  deriving DecidableEq, Repr

/-- Terminal state of the session, following the spec's state machine. -/
inductive SessionOutcome where
  /-- No artifacts found at the List step; informational exit. -/
  | empty
  /-- Quit sentinel, invalid selection, or negative confirmation. -/
  | cancelled
  /-- Restore invoked and it succeeded. -/
  | completed
  /-- Restore invoked and its failure was caught and logged. -/
  | failed
  deriving DecidableEq, Repr

/-- One run of the `restore` command action: its event trace and terminal
state. -/
structure SessionRun where
  events : List REvent
  outcome : SessionOutcome
  deriving DecidableEq, Repr

/-- Function `isValidSelection(selection, maxLength)` from `src/index.ts`, where
`selection` is `Number.parseInt(answer) - 1` (`none` models `NaN`):
`!Number.isNaN(selection) && selection >= 0 && selection < maxLength`. -/
def isValidSelection (selection : Option Int) (maxLength : Nat) : Bool :=
  match selection with
  | none => false
  | some v => decide (0 ≤ v) && decide (v < (maxLength : Int))

/-- Body of the `restore` action (the `try`/`catch` part, before the
`finally`): `backups` is the `listBackups()` result, `answer` and `conf` the
two lines the operator would enter, `rRes` the outcome of the underlying
restore invocation.  Mirrors `src/index.ts` lines 51–93. -/
def restoreActionBody (backups : List String) (answer conf : String)
    (rRes : Except String Unit) : SessionRun :=
  if backups.length = 0 then
    ⟨[.msg "No backup files available"], .empty⟩
  else
    let selectPrompt :=
      "\nEnter the number of the backup to restore (1-" ++
        toString backups.length ++ "), or 'q' to quit: "
    let step : List REvent × SessionOutcome :=
      if jsToLower answer = "q" then
        ([.msg "Restore cancelled"], .cancelled)
      else
        let selection := (jsParseInt answer).map (fun k => k - 1)
        if isValidSelection selection backups.length then
          let selectedBackup := backups.getD ((selection.getD 0).toNat) ""
          let confirmPrompt :=
            "\nAre you sure you want to restore from " ++
              basename selectedBackup ++ "? (y/N): "
          if jsToLower conf ≠ "y" then
            ([.prompt confirmPrompt, .msg "Restore cancelled"], .cancelled)
          else
            match rRes with
            | .ok _ =>
              ([.prompt confirmPrompt, .restoreCall selectedBackup,
                .msg "Restore completed successfully"], .completed)
            | .error _ =>
              ([.prompt confirmPrompt, .restoreCall selectedBackup,
                .errorLog "Restore failed:"], .failed)
        else
          ([.msg "Invalid selection"], .cancelled)
    ⟨.display backups :: .prompt selectPrompt :: step.1, step.2⟩

/-- The full `restore` action: the body wrapped by the `finally` block that
closes the readline interface on every exit path. -/
def restoreAction (backups : List String) (answer conf : String)
    (rRes : Except String Unit) : SessionRun :=
  let body := restoreActionBody backups answer conf rRes
  ⟨body.events ++ [.closed], body.outcome⟩

/-- Number of interactive prompts issued during a run. -/
def promptCount (run : SessionRun) : Nat :=
  run.events.countP (fun e => match e with | .prompt _ => true | _ => false)

/-- The paths `restoreBackup` was invoked on during a run, in order. -/
def restoreCallsOf (run : SessionRun) : List String :=
  run.events.filterMap (fun e => match e with | .restoreCall p => some p | _ => none)

/-! ## Helper lemmas -/

/-- Applying `Char.ofNat` undoes `Char.toNat` on valid codepoints. -/
theorem toNat_ofNat_valid (n : Nat) (hn : n.isValidChar) :
    (Char.ofNat n).toNat = n := by
  simp [Char.ofNat, dif_pos hn, Char.ofNatAux, Char.toNat, UInt32.toNat]

/-- The only characters that lowercase to `'q'` are `'q'` and `'Q'`. -/
theorem charToLower_eq_q (c : Char) (h : c.toLower = 'q') : c = 'q' ∨ c = 'Q' := by
  unfold Char.toLower at h
  simp only [] at h
  by_cases hcond : c.toNat ≥ 65 ∧ c.toNat ≤ 90
  · rw [if_pos hcond] at h
    right
    have hv : (c.toNat + 32).isValidChar := Or.inl (by omega)
    have h1 : (Char.ofNat (c.toNat + 32)).toNat = Char.toNat 'q' :=
      congrArg Char.toNat h
    rw [toNat_ofNat_valid _ hv] at h1
    have h81 : c.toNat = 81 := by
      have hq : Char.toNat 'q' = 113 := rfl
      omega
    calc c = Char.ofNat c.toNat := (Char.ofNat_toNat c).symm
    _ = Char.ofNat 81 := by rw [h81]
    _ = 'Q' := by decide
  · rw [if_neg hcond] at h
    left; exact h

/-- The only strings that lowercase to the quit sentinel are `"q"` and `"Q"`. -/
theorem toLower_eq_quit {s : String} (h : jsToLower s = "q") :
    s = "q" ∨ s = "Q" := by
  have hd : s.data.map Char.toLower = ['q'] := congrArg String.data h
  obtain ⟨c, cs, hsd⟩ : ∃ c cs, s.data = c :: cs := by
    cases hsd : s.data with
    | nil => rw [hsd] at hd; simp at hd
    | cons c cs => exact ⟨c, cs, rfl⟩
  rw [hsd] at hd
  simp only [List.map_cons, List.cons.injEq, List.map_eq_nil_iff] at hd
  obtain ⟨hc, hcs⟩ := hd
  have hs1 : s.data = [c] := by rw [hsd, hcs]
  rcases charToLower_eq_q c hc with hq | hQ
  · left
    exact String.ext (by rw [hs1, hq])
  · right
    exact String.ext (by rw [hs1, hQ])

/-- No input that lowercases to the quit sentinel parses as a number. -/
theorem jsParseInt_of_toLower_quit {s : String} (h : jsToLower s = "q") :
    jsParseInt s = none := by
  rcases toLower_eq_quit h with rfl | rfl <;> rfl

/-- Joining `"sql"` onto a directory never gives back the directory itself. -/
theorem ne_pathJoin_sql (d : String) : ¬ pathJoin d "sql" = d := by
  intro h
  have hlen := congrArg String.length h
  simp only [pathJoin, String.length_append] at hlen
  have h1 : String.length "/" = 1 := rfl
  have h3 : String.length "sql" = 3 := rfl
  omega

/-! ## Claims -/

/-- C1: whenever either of the two dump invocations reports failure,
`createBackup` fails as a whole (its result is an error, never a success
pair), and the structured error log it emits before propagating the failure
includes the database identifier. -/
theorem claim_C1 (dbName backupDir sqlDir dbUrl isoNow : String)
    (r1 r2 : ExecOutcome) (h : r1.isOk = false ∨ r2.isOk = false) :
    (∃ e, (createBackup dbName backupDir sqlDir dbUrl isoNow r1 r2).result =
      .error e) ∧
    ∃ pre post,
      (createBackup dbName backupDir sqlDir dbUrl isoNow r1 r2).errorLog =
        some (pre ++ dbName ++ post) := by
  obtain ⟨t1, res1⟩ := r1
  obtain ⟨t2, res2⟩ := r2
  cases res1 with
  | ok u =>
    cases res2 with
    | ok v => simp [ExecOutcome.isOk] at h
    | error e =>
      refine ⟨⟨e, ?_⟩, "Backup failed for database '", "':", ?_⟩ <;>
        simp [createBackup, promiseAll2]
  | error e =>
    cases res2 with
    | ok v =>
      refine ⟨⟨e, ?_⟩, "Backup failed for database '", "':", ?_⟩ <;>
        simp [createBackup, promiseAll2]
    | error e2 =>
      by_cases hle : t1 ≤ t2
      · refine ⟨⟨e, ?_⟩, "Backup failed for database '", "':", ?_⟩ <;>
          simp [createBackup, promiseAll2, hle]
      · refine ⟨⟨e2, ?_⟩, "Backup failed for database '", "':", ?_⟩ <;>
          simp [createBackup, promiseAll2, hle]

/-- Witness for C1 at a concrete run whose plain dump fails. -/
theorem claim_C1_witness :
    (∃ e, (createBackup "db" "b" "b/sql" "u" "T" ⟨1, .error "boom"⟩
      ⟨5, .ok ()⟩).result = .error e) ∧
    ∃ pre post,
      (createBackup "db" "b" "b/sql" "u" "T" ⟨1, .error "boom"⟩
        ⟨5, .ok ()⟩).errorLog = some (pre ++ "db" ++ post) :=
  claim_C1 "db" "b" "b/sql" "u" "T" ⟨1, .error "boom"⟩ ⟨5, .ok ()⟩ (Or.inl rfl)

/-- C2: with the clock fixed at instant `isoNow`, `createBackup` launches
exactly two dump invocations, whose target files both embed the database
identifier and the timestamp with every colon and period replaced by a
hyphen — the `.sql` file under the sql subdirectory and the `.backup` file
under the root backup directory — and on success it returns exactly those
two paths. -/
theorem claim_C2 (dbName backupDir sqlDir dbUrl isoNow : String)
    (r1 r2 : ExecOutcome) :
    (createBackup dbName backupDir sqlDir dbUrl isoNow r1 r2).cmds =
      [DumpCmd.pgDumpPlain dbUrl (sqlDir ++ "/" ++ (dbName ++ "-backup-" ++
        isoNow.map (fun c => if c = ':' ∨ c = '.' then '-' else c) ++ ".sql")),
       DumpCmd.pgDumpCustom dbUrl (backupDir ++ "/" ++ (dbName ++ "-backup-" ++
        isoNow.map (fun c => if c = ':' ∨ c = '.' then '-' else c) ++ ".backup"))] ∧
    (r1.isOk = true → r2.isOk = true →
      (createBackup dbName backupDir sqlDir dbUrl isoNow r1 r2).result =
        .ok (sqlDir ++ "/" ++ (dbName ++ "-backup-" ++
          isoNow.map (fun c => if c = ':' ∨ c = '.' then '-' else c) ++ ".sql"),
          backupDir ++ "/" ++ (dbName ++ "-backup-" ++
          isoNow.map (fun c => if c = ':' ∨ c = '.' then '-' else c) ++ ".backup"))) := by
  obtain ⟨t1, res1⟩ := r1
  obtain ⟨t2, res2⟩ := r2
  refine ⟨?_, ?_⟩
  · cases res1 <;> cases res2 <;>
      by_cases hle : t1 ≤ t2 <;>
        simp [createBackup, promiseAll2, pathJoin, hle]
  · intro h1 h2
    cases res1 with
    | error e => simp [ExecOutcome.isOk] at h1
    | ok u =>
      cases res2 with
      | error e => simp [ExecOutcome.isOk] at h2
      | ok v => simp [createBackup, promiseAll2, pathJoin]

/-- Witness for C2 at a concrete successful run. -/
theorem claim_C2_witness :
    (createBackup "db" "b" "b/sql" "u" "2024-01-02T03:04:05.678Z"
      ⟨3, .ok ()⟩ ⟨5, .ok ()⟩).result =
      .ok ("b/sql" ++ "/" ++ ("db" ++ "-backup-" ++
        ("2024-01-02T03:04:05.678Z").map
          (fun c => if c = ':' ∨ c = '.' then '-' else c) ++ ".sql"),
        "b" ++ "/" ++ ("db" ++ "-backup-" ++
        ("2024-01-02T03:04:05.678Z").map
          (fun c => if c = ':' ∨ c = '.' then '-' else c) ++ ".backup")) :=
  (claim_C2 "db" "b" "b/sql" "u" "2024-01-02T03:04:05.678Z"
    ⟨3, .ok ()⟩ ⟨5, .ok ()⟩).2 rfl rfl

/-- C3: `restoreBackup` picks exactly one restore method by suffix alone —
the clean `pg_restore` for paths ending in `.backup`, the plain `psql`
execution for every other path — checked also at the boundary cases
`foo.backup`, `foo.sql`, `foo.backupx`, `foo`. -/
theorem claim_C3 (dbUrl p : String) (r : Except String Unit) :
    ((restoreBackup dbUrl p r).command = RestoreCmd.pgRestoreClean dbUrl p ↔
      jsEndsWith p ".backup" = true) ∧
    ((restoreBackup dbUrl p r).command = RestoreCmd.psqlFile dbUrl p ↔
      ¬ jsEndsWith p ".backup" = true) ∧
    (restoreBackup dbUrl "foo.backup" r).command =
      RestoreCmd.pgRestoreClean dbUrl "foo.backup" ∧
    (restoreBackup dbUrl "foo.sql" r).command =
      RestoreCmd.psqlFile dbUrl "foo.sql" ∧
    (restoreBackup dbUrl "foo.backupx" r).command =
      RestoreCmd.psqlFile dbUrl "foo.backupx" ∧
    (restoreBackup dbUrl "foo" r).command = RestoreCmd.psqlFile dbUrl "foo" := by
  have hb : jsEndsWith "foo.backup" ".backup" = true := by decide
  have hs : jsEndsWith "foo.sql" ".backup" = false := by decide
  have hx : jsEndsWith "foo.backupx" ".backup" = false := by decide
  have hf : jsEndsWith "foo" ".backup" = false := by decide
  cases r <;> by_cases hend : jsEndsWith p ".backup" <;>
    simp [restoreBackup, hend, hb, hs, hx, hf]

/-- Witness for C3 at the boundary paths `foo.backup` and `foo.sql`. -/
theorem claim_C3_witness :
    (restoreBackup "u" "foo.backup" (.ok ())).command =
      RestoreCmd.pgRestoreClean "u" "foo.backup" ∧
    (restoreBackup "u" "foo.sql" (.ok ())).command =
      RestoreCmd.psqlFile "u" "foo.sql" :=
  ⟨(claim_C3 "u" "foo.backup" (.ok ())).2.2.1,
   (claim_C3 "u" "foo.sql" (.ok ())).2.2.2.1⟩

/-- C5 counterexample: for the parsable connection string
`postgres://host/` the URL pathname is `"/"`; stripping the leading
separator gives `""`, but `extractDbName` returns the sentinel instead of
the stripped path. -/
theorem claim_C5_counterexample :
    ¬ (extractDbName (some "/") = String.drop "/" 1) := by decide

/-- C5 (amended): for a connection string parsing with path component `p`,
`extractDbName` returns `p` with the leading separator stripped whenever the
stripped remainder is nonempty; when the remainder is empty, and on any
parse failure, it returns the sentinel `"unknown-db"`; it never throws
(it is a total function). -/
theorem claim_C5_amended (p : String) :
    (¬ p.drop 1 = "" → extractDbName (some p) = p.drop 1) ∧
    (p.drop 1 = "" → extractDbName (some p) = "unknown-db") ∧
    extractDbName none = "unknown-db" := by
  refine ⟨?_, ?_, rfl⟩ <;> intro h <;> simp [extractDbName, h]

/-- Witness for C5 (amended) at the pathname `"/mydb"`. -/
theorem claim_C5_amended_witness :
    extractDbName (some "/mydb") = String.drop "/mydb" 1 ∧
    extractDbName (some "/") = "unknown-db" :=
  ⟨(claim_C5_amended "/mydb").1 (by decide),
   (claim_C5_amended "/").2.1 (by decide)⟩

/-- C9: a parsed connection URL whose pathname is empty or just the leading
separator yields the sentinel `"unknown-db"`, and the derived database
identifier is never the empty string. -/
theorem claim_C9 :
    (∀ p : String, p.drop 1 = "" → extractDbName (some p) = "unknown-db") ∧
    ∀ parsed : Option String, ¬ extractDbName parsed = "" := by
  constructor
  · intro p h
    simp [extractDbName, h]
  · intro parsed
    cases parsed with
    | none => decide
    | some p =>
      by_cases h : p.drop 1 = "" <;> simp [extractDbName, h]

/-- Witness for C9 at the pathnames `""` and `"/"` and a failed parse. -/
theorem claim_C9_witness :
    extractDbName (some "") = "unknown-db" ∧
    extractDbName (some "/") = "unknown-db" ∧
    ¬ extractDbName none = "" :=
  ⟨claim_C9.1 "" (by decide), claim_C9.1 "/" (by decide), claim_C9.2 none⟩

/-- One `createDirectories` call leaves both directories present. -/
theorem mem_createDirectories (d : String) (fs : List String) :
    d ∈ createDirectories d fs ∧ pathJoin d "sql" ∈ createDirectories d fs := by
  unfold createDirectories existsSync mkdirSync
  by_cases h1 : fs.contains d = true
  · have h1m : d ∈ fs := by simpa using h1
    rw [if_pos h1]
    by_cases h2 : fs.contains (pathJoin d "sql") = true
    · have h2m : pathJoin d "sql" ∈ fs := by simpa using h2
      rw [if_pos h2]
      exact ⟨h1m, h2m⟩
    · rw [if_neg h2]
      exact ⟨List.mem_cons_of_mem _ h1m, List.mem_cons_self _ _⟩
  · rw [if_neg h1]
    by_cases h2 : (d :: fs).contains (pathJoin d "sql") = true
    · have h2m : pathJoin d "sql" ∈ d :: fs := by simpa using h2
      rw [if_pos h2]
      exact ⟨List.mem_cons_self _ _, h2m⟩
    · rw [if_neg h2]
      exact ⟨List.mem_cons_of_mem _ (List.mem_cons_self _ _),
        List.mem_cons_self _ _⟩

/-- When both directories already exist, `createDirectories` is a no-op. -/
theorem createDirectories_noop (d : String) (fs : List String)
    (hd : d ∈ fs) (hs : pathJoin d "sql" ∈ fs) :
    createDirectories d fs = fs := by
  have h1 : existsSync fs d = true := by simpa [existsSync] using hd
  have h2 : existsSync fs (pathJoin d "sql") = true := by
    simpa [existsSync] using hs
  unfold createDirectories
  rw [if_pos h1, if_pos h2]

/-- Starting from a duplicate-free filesystem, one `createDirectories` call
leaves exactly one copy of each directory. -/
theorem count_createDirectories (d : String) (fs : List String)
    (hd : fs.count d ≤ 1) (hs : fs.count (pathJoin d "sql") ≤ 1) :
    (createDirectories d fs).count d = 1 ∧
      (createDirectories d fs).count (pathJoin d "sql") = 1 := by
  have hne : ¬ pathJoin d "sql" = d := ne_pathJoin_sql d
  unfold createDirectories existsSync mkdirSync
  by_cases h1 : fs.contains d = true
  · have h1m : d ∈ fs := by simpa using h1
    have hcd : fs.count d = 1 := by
      have := List.count_pos_iff.mpr h1m
      omega
    rw [if_pos h1]
    by_cases h2 : fs.contains (pathJoin d "sql") = true
    · have h2m : pathJoin d "sql" ∈ fs := by simpa using h2
      have hcs : fs.count (pathJoin d "sql") = 1 := by
        have := List.count_pos_iff.mpr h2m
        omega
      rw [if_pos h2]
      exact ⟨hcd, hcs⟩
    · have h2m : ¬ pathJoin d "sql" ∈ fs := by simpa using h2
      have hcs : fs.count (pathJoin d "sql") = 0 := List.count_eq_zero.mpr h2m
      rw [if_neg h2]
      constructor <;> simp [List.count_cons, hne, hcd, hcs]
  · have h1m : ¬ d ∈ fs := by simpa using h1
    have hcd : fs.count d = 0 := List.count_eq_zero.mpr h1m
    rw [if_neg h1]
    by_cases h2 : (d :: fs).contains (pathJoin d "sql") = true
    · have h2m : pathJoin d "sql" ∈ d :: fs := by simpa using h2
      have h2f : pathJoin d "sql" ∈ fs := by
        rcases List.mem_cons.mp h2m with h | h
        · exact absurd h hne
        · exact h
      have hcs : fs.count (pathJoin d "sql") = 1 := by
        have := List.count_pos_iff.mpr h2f
        omega
      rw [if_pos h2]
      constructor <;> simp [List.count_cons, hne, hcd, hcs]
    · have h2m : ¬ pathJoin d "sql" ∈ d :: fs := by simpa using h2
      have h2f : ¬ pathJoin d "sql" ∈ fs := fun h =>
        h2m (List.mem_cons_of_mem _ h)
      have hcs : fs.count (pathJoin d "sql") = 0 := List.count_eq_zero.mpr h2f
      rw [if_neg h2]
      constructor <;> simp [List.count_cons, hne, hcd, hcs]

/-- C6: `createDirectories` is idempotent — after two successive calls on
the same root both the root directory and the nested sql subdirectory are
present, the second call changes nothing (so it completes without error),
and starting from a filesystem holding at most one copy of each, exactly one
copy of each directory remains. -/
theorem claim_C6 (backupDir : String) (fs : List String) :
    createDirectories backupDir (createDirectories backupDir fs) =
      createDirectories backupDir fs ∧
    backupDir ∈ createDirectories backupDir (createDirectories backupDir fs) ∧
    pathJoin backupDir "sql" ∈
      createDirectories backupDir (createDirectories backupDir fs) ∧
    (fs.count backupDir ≤ 1 → fs.count (pathJoin backupDir "sql") ≤ 1 →
      (createDirectories backupDir (createDirectories backupDir fs)).count
          backupDir = 1 ∧
      (createDirectories backupDir (createDirectories backupDir fs)).count
          (pathJoin backupDir "sql") = 1) := by
  obtain ⟨hd, hs⟩ := mem_createDirectories backupDir fs
  have hno : createDirectories backupDir (createDirectories backupDir fs) =
      createDirectories backupDir fs := createDirectories_noop _ _ hd hs
  refine ⟨hno, ?_, ?_, ?_⟩
  · rw [hno]; exact hd
  · rw [hno]; exact hs
  · intro h1 h2
    rw [hno]
    exact count_createDirectories backupDir fs h1 h2

/-- Witness for C6 on an initially empty filesystem. -/
theorem claim_C6_witness :
    "backups" ∈ createDirectories "backups" (createDirectories "backups" []) ∧
    (createDirectories "backups" (createDirectories "backups" [])).count
      "backups" = 1 ∧
    (createDirectories "backups" (createDirectories "backups" [])).count
      (pathJoin "backups" "sql") = 1 := by
  have h := claim_C6 "backups" []
  exact ⟨h.2.1, (h.2.2.2 (by decide) (by decide)).1,
    (h.2.2.2 (by decide) (by decide)).2⟩

/-- C7 counterexample: with the plain dump rejecting at instant 1 and the
custom dump fulfilling at instant 5, `createBackup` resumes at instant 1 —
it does not suspend until both invocations have completed. -/
theorem claim_C7_counterexample :
    ¬ ((createBackup "db" "b" "b/sql" "u" "T" ⟨1, .error "boom"⟩
      ⟨5, .ok ()⟩).settleTime = max 1 5) := by decide

/-- C7 (amended): `createBackup` launches both dump invocations (both
commands are always issued); when both succeed it suspends until both have
completed, resuming at the later completion instant; but when an invocation
fails it resumes at the earliest failure instant, possibly before the other
invocation has completed. -/
theorem claim_C7_amended (dbName backupDir sqlDir dbUrl isoNow : String)
    (r1 r2 : ExecOutcome) :
    (createBackup dbName backupDir sqlDir dbUrl isoNow r1 r2).cmds.length = 2 ∧
    (r1.isOk = true → r2.isOk = true →
      (createBackup dbName backupDir sqlDir dbUrl isoNow r1 r2).settleTime =
        max r1.time r2.time) ∧
    (r1.isOk = false → r2.isOk = true →
      (createBackup dbName backupDir sqlDir dbUrl isoNow r1 r2).settleTime =
        r1.time) ∧
    (r1.isOk = true → r2.isOk = false →
      (createBackup dbName backupDir sqlDir dbUrl isoNow r1 r2).settleTime =
        r2.time) ∧
    (r1.isOk = false → r2.isOk = false →
      (createBackup dbName backupDir sqlDir dbUrl isoNow r1 r2).settleTime =
        min r1.time r2.time) := by
  obtain ⟨t1, res1⟩ := r1
  obtain ⟨t2, res2⟩ := r2
  refine ⟨?_, ?_, ?_, ?_, ?_⟩
  · cases res1 <;> cases res2 <;>
      by_cases hle : t1 ≤ t2 <;> simp [createBackup, promiseAll2, hle]
  · intro h1 h2
    cases res1 with
    | error e => simp [ExecOutcome.isOk] at h1
    | ok u =>
      cases res2 with
      | error e => simp [ExecOutcome.isOk] at h2
      | ok v => simp [createBackup, promiseAll2]
  · intro h1 h2
    cases res1 with
    | ok u => simp [ExecOutcome.isOk] at h1
    | error e =>
      cases res2 with
      | error e2 => simp [ExecOutcome.isOk] at h2
      | ok v => simp [createBackup, promiseAll2]
  · intro h1 h2
    cases res1 with
    | error e => simp [ExecOutcome.isOk] at h1
    | ok u =>
      cases res2 with
      | ok v => simp [ExecOutcome.isOk] at h2
      | error e => simp [createBackup, promiseAll2]
  · intro h1 h2
    cases res1 with
    | ok u => simp [ExecOutcome.isOk] at h1
    | error e =>
      cases res2 with
      | ok v => simp [ExecOutcome.isOk] at h2
      | error e2 =>
        by_cases hle : t1 ≤ t2 <;>
          simp [createBackup, promiseAll2, hle, Nat.min_def]

/-- Witness for C7 (amended): a failing plain dump at instant 1 next to a
custom dump completing at instant 5 resumes the caller at instant 1. -/
theorem claim_C7_amended_witness :
    (createBackup "db" "b" "b/sql" "u" "T" ⟨1, .error "boom"⟩
      ⟨5, .ok ()⟩).settleTime = 1 :=
  (claim_C7_amended "db" "b" "b/sql" "u" "T" ⟨1, .error "boom"⟩
    ⟨5, .ok ()⟩).2.2.1 rfl rfl

/-- C8: the interactive input channel is closed on every exit path of the
restore session — the event trace always ends with the `rl.close()` of the
`finally` block, and closes it exactly once. -/
theorem claim_C8 (backups : List String) (answer conf : String)
    (rRes : Except String Unit) :
    (restoreAction backups answer conf rRes).events.getLast? =
      some REvent.closed ∧
    (restoreAction backups answer conf rRes).events.count REvent.closed = 1 := by
  constructor
  · unfold restoreAction
    exact List.getLast?_concat _
  · unfold restoreAction restoreActionBody
    by_cases h0 : backups.length = 0 <;>
      by_cases hq : jsToLower answer = "q" <;>
        by_cases hv : isValidSelection
          ((jsParseInt answer).map (fun k => k - 1)) backups.length = true <;>
          by_cases hy : jsToLower conf = "y" <;>
            cases rRes <;>
              simp [h0, hq, hv, hy, List.count_cons, List.count_append]

/-- Witness for C8 at a concrete cancelled run. -/
theorem claim_C8_witness :
    (restoreAction ["a.backup"] "q" "y" (.ok ())).events.getLast? =
      some REvent.closed ∧
    (restoreAction ["a.backup"] "q" "y" (.ok ())).events.count
      REvent.closed = 1 :=
  claim_C8 ["a.backup"] "q" "y" (.ok ())

/-- C4: the interactive restore session — with no artifacts it exits with an
informational message and no prompt; with artifacts, an input parsing to
`0` or `N+1`, or any non-numeric token, cancels without invoking restore; a
valid index followed by a non-affirmative confirmation cancels without
invoking restore; a valid index `k` (1-based) followed by the
case-insensitive affirmative token invokes restore exactly once, on the
`k`-th artifact's path. -/
theorem claim_C4 (backups : List String) (answer conf : String)
    (rRes : Except String Unit) :
    (restoreAction [] answer conf rRes =
      ⟨[REvent.msg "No backup files available", REvent.closed],
        SessionOutcome.empty⟩ ∧
      promptCount (restoreAction [] answer conf rRes) = 0) ∧
    (¬ backups = [] →
      ((jsParseInt answer = some 0 ∨
          jsParseInt answer = some ((backups.length : Int) + 1) ∨
          jsParseInt answer = none) →
        (restoreAction backups answer conf rRes).outcome =
          SessionOutcome.cancelled ∧
        restoreCallsOf (restoreAction backups answer conf rRes) = []) ∧
      ∀ k : Nat, jsParseInt answer = some ((k : Int) + 1) →
        k + 1 ≤ backups.length →
        ((¬ jsToLower conf = "y" →
          (restoreAction backups answer conf rRes).outcome =
            SessionOutcome.cancelled ∧
          restoreCallsOf (restoreAction backups answer conf rRes) = []) ∧
        (jsToLower conf = "y" →
          restoreCallsOf (restoreAction backups answer conf rRes) =
            [backups.getD k ""]))) := by
  refine ⟨⟨rfl, rfl⟩, ?_⟩
  intro hne
  have hlen : ¬ backups.length = 0 := by
    simpa [List.length_eq_zero] using hne
  constructor
  · intro hcase
    by_cases hq : jsToLower answer = "q"
    · constructor <;>
        simp [restoreAction, restoreActionBody, restoreCallsOf, hlen, hq]
    · have hv : ¬ isValidSelection ((jsParseInt answer).map (fun v => v - 1))
          backups.length = true := by
        rcases hcase with h | h | h <;>
          simp [isValidSelection, h]
      constructor <;>
        simp [restoreAction, restoreActionBody, restoreCallsOf, hlen, hq, hv]
  · intro k hp hk
    have hq : ¬ jsToLower answer = "q" := by
      intro h
      rw [jsParseInt_of_toLower_quit h] at hp
      exact Option.noConfusion hp
    have hsel : (jsParseInt answer).map (fun v => v - 1) = some (k : Int) := by
      simp [hp]
    have hv : isValidSelection (some (k : Int)) backups.length = true := by
      simp [isValidSelection]
      omega
    refine ⟨?_, ?_⟩
    · intro hy
      constructor <;>
        simp [restoreAction, restoreActionBody, restoreCallsOf,
          hlen, hq, hv, hsel, hy]
    · intro hy
      cases rRes <;>
        simp [restoreAction, restoreActionBody, restoreCallsOf,
          hlen, hq, hv, hsel, hy]

/-- Witness for C4: two artifacts; the inputs `"0"`, `"3"`, `"x"` cancel;
`"2"` then `"n"` cancels; `"2"` then `"Y"` restores the second artifact. -/
theorem claim_C4_witness :
    ((restoreAction ["a.backup", "b.backup"] "0" "y" (.ok ())).outcome =
        SessionOutcome.cancelled ∧
      restoreCallsOf (restoreAction ["a.backup", "b.backup"] "0" "y"
        (.ok ())) = []) ∧
    ((restoreAction ["a.backup", "b.backup"] "3" "y" (.ok ())).outcome =
        SessionOutcome.cancelled ∧
      restoreCallsOf (restoreAction ["a.backup", "b.backup"] "3" "y"
        (.ok ())) = []) ∧
    ((restoreAction ["a.backup", "b.backup"] "x" "y" (.ok ())).outcome =
        SessionOutcome.cancelled ∧
      restoreCallsOf (restoreAction ["a.backup", "b.backup"] "x" "y"
        (.ok ())) = []) ∧
    ((restoreAction ["a.backup", "b.backup"] "2" "n" (.ok ())).outcome =
        SessionOutcome.cancelled ∧
      restoreCallsOf (restoreAction ["a.backup", "b.backup"] "2" "n"
        (.ok ())) = []) ∧
    restoreCallsOf (restoreAction ["a.backup", "b.backup"] "2" "Y"
      (.ok ())) = ["b.backup"] := by
  refine ⟨?_, ?_, ?_, ?_, ?_⟩
  · exact (claim_C4 ["a.backup", "b.backup"] "0" "y" (.ok ())).2
      (by decide) |>.1 (Or.inl (by decide))
  · exact (claim_C4 ["a.backup", "b.backup"] "3" "y" (.ok ())).2
      (by decide) |>.1 (Or.inr (Or.inl (by decide)))
  · exact (claim_C4 ["a.backup", "b.backup"] "x" "y" (.ok ())).2
      (by decide) |>.1 (Or.inr (Or.inr (by decide)))
  · exact ((claim_C4 ["a.backup", "b.backup"] "2" "n" (.ok ())).2
      (by decide) |>.2 1 (by decide) (by decide)).1 (by decide)
  · exact ((claim_C4 ["a.backup", "b.backup"] "2" "Y" (.ok ())).2
      (by decide) |>.2 1 (by decide) (by decide)).2 (by decide)

/-- C10: at the Select step, any input whose leading decimal prefix parses
(by `Number.parseInt`) to a 1-based index `k + 1` within range is accepted
even when trailing non-numeric characters follow: the selection validates,
the session reaches the Confirm prompt (two prompts in total), and an
affirmative confirmation restores the `(k+1)`-th artifact. -/
theorem claim_C10 (backups : List String) (answer conf : String)
    (rRes : Except String Unit) (k : Nat)
    (hp : jsParseInt answer = some ((k : Int) + 1))
    (hk : k + 1 ≤ backups.length) :
    isValidSelection ((jsParseInt answer).map (fun v => v - 1))
      backups.length = true ∧
    promptCount (restoreAction backups answer conf rRes) = 2 ∧
    (jsToLower conf = "y" →
      restoreCallsOf (restoreAction backups answer conf rRes) =
        [backups.getD k ""]) := by
  have hlen : ¬ backups.length = 0 := by omega
  have hq : ¬ jsToLower answer = "q" := by
    intro h
    rw [jsParseInt_of_toLower_quit h] at hp
    exact Option.noConfusion hp
  have hsel : (jsParseInt answer).map (fun v => v - 1) = some (k : Int) := by
    simp [hp]
  have hv : isValidSelection (some (k : Int)) backups.length = true := by
    simp [isValidSelection]
    omega
  refine ⟨by rw [hsel]; exact hv, ?_, ?_⟩
  · by_cases hy : jsToLower conf = "y"
    · cases rRes <;>
        simp [restoreAction, restoreActionBody, promptCount,
          hlen, hq, hv, hsel, hy]
    · simp [restoreAction, restoreActionBody, promptCount,
        hlen, hq, hv, hsel, hy]
  · intro hy
    cases rRes <;>
      simp [restoreAction, restoreActionBody, restoreCallsOf,
        hlen, hq, hv, hsel, hy]

/-- Witness for C10: the input `"2abc"` selects and restores the second of
three artifacts. -/
theorem claim_C10_witness :
    isValidSelection ((jsParseInt "2abc").map (fun v => v - 1)) 3 = true ∧
    promptCount (restoreAction ["a.backup", "b.backup", "c.backup"] "2abc"
      "y" (.ok ())) = 2 ∧
    restoreCallsOf (restoreAction ["a.backup", "b.backup", "c.backup"]
      "2abc" "y" (.ok ())) = ["b.backup"] := by
  have h := claim_C10 ["a.backup", "b.backup", "c.backup"] "2abc" "y"
    (.ok ()) 1 (by decide) (by decide)
  exact ⟨by simpa using h.1, h.2.1, h.2.2 (by decide)⟩

end PostgresBackup
